import Mathlib

/-!
Shallow embedding of the ShadowOS AI engine (TypeScript) decision-and-scoring
core, together with proofs about its specified behaviour.

Modelling conventions:
* JavaScript `number` values (IEEE doubles holding small exact quantities in
  this code base) are modelled as exact rationals `ℚ`.
* `bigint` values are modelled as `ℤ`.
* `Uint8Array` bytes are modelled as `Fin 256` (`Byte`), byte sequences as
  `List Byte`.
* JS `Map` objects keyed by strings are modelled either as association lists
  (when in-place mutation of a looked-up entry matters) or as total functions
  `String → List _` defaulting to `[]` (mirroring `map.get(k) || []`).
* Mutation of instance state is modelled by explicit state passing; a method
  that can throw a `TypeError` (property access on `undefined`) returns
  `Option`.
* `sha256` from `@noble/hashes` is an opaque pure function; definitions take
  it as an explicit parameter `hashFn : List Byte → List Byte`.
* JS truthiness tests on optional values are modelled literally: `0n`, `0`
  and the empty string are falsy, objects and arrays (even empty) are truthy.
-/

/-- One byte of a `Uint8Array`. -/
abbrev Byte := Fin 256

/-- Hexadecimal digit characters, as produced by `Number.prototype.toString(16)`. -/
def hexDigits : List Char :=
  ("0123456789abcdef").toList

/-- `b.toString(16).padStart(2, '0')` for a byte `b < 256`: two hex characters. -/
def byteToHexChars (b : Byte) : List Char :=
  [hexDigits.getD (b.val / 16) '0', hexDigits.getD (b.val % 16) '0']

/-- `bytesToHex` as defined (identically) in `fraud-detector.ts` and
`privacy-adapter.ts`: map each byte to its zero-padded hex form and join. -/
def bytesToHex (bytes : List Byte) : String :=
  String.mk (bytes.map byteToHexChars).flatten

/-- The four-valued privacy level union type `'low'|'medium'|'high'|'maximum'`. -/
inductive PrivacyLevel where
  | low
  | medium
  | high
  | maximum
deriving DecidableEq, BEq, Repr

/-- The four-valued threat level union type `'low'|'medium'|'high'|'critical'`
of `privacy-adapter.ts`. -/
inductive ThreatLevel where
  | low
  | medium
  | high
  | critical
deriving DecidableEq, BEq, Repr

/-- The risk level union of `fraud-detector.ts` (same four string values as
`ThreatLevel`, kept as a distinct type because the sources declare them
separately). -/
inductive RiskLevel where
  | low
  | medium
  | high
  | critical
deriving DecidableEq, BEq, Repr

/-- Numeric rank of a risk level, for stating monotonicity (low < medium <
high < critical, the order implied by the spec's ordered-tier reading). -/
def RiskLevel.rank : RiskLevel → ℕ
  | .low => 0
  | .medium => 1
  | .high => 2
  | .critical => 3

/-- Numeric rank of a privacy level (low < medium < high < maximum). -/
def PrivacyLevel.rank : PrivacyLevel → ℕ
  | .low => 0
  | .medium => 1
  | .high => 2
  | .maximum => 3

namespace Privacy

/-- `TransactionType` union of `privacy-adapter.ts`. -/
inductive TransactionType where
  | payment
  | reputation
  | compliance
  | governance
deriving DecidableEq, BEq, Repr

/-- `PrivacyConfiguration` interface. -/
structure PrivacyConfiguration where
  level : PrivacyLevel
  proofSize : ℕ
  verifyTime : ℚ
  zkProofRequired : Bool
  merkleDepth : ℕ
  polynomialDegree : ℕ
deriving DecidableEq, Repr

/-- `NetworkConditions` interface. -/
structure NetworkConditions where
  congestion : ℚ
  avgGasPrice : ℤ
  networkHealth : ℚ
deriving DecidableEq, Repr

/-- `PrivacyContext` interface. -/
structure PrivacyContext where
  userPseudonym : List Byte
  transactionType : TransactionType
  amount : Option ℤ
  threatLevel : Option ThreatLevel
  networkConditions : Option NetworkConditions

/-- The `threatHistory` map of `PrivacyAdapter`, modelled as a total function
defaulting to `[]` (the source reads it as `this.threatHistory.get(key) || []`). -/
abbrev ThreatHistory := String → List ThreatLevel

/-- The fresh `threatHistory` of a newly constructed `PrivacyAdapter`. -/
def emptyThreatHistory : ThreatHistory := fun _ => []

/-- `PrivacyAdapter.adjustLevel`: move `level` by `steps` inside the ordered
list `['low','medium','high','maximum']`, clamping the index to `[0, 3]`.
The `getD .low` default is unreachable: the clamped index is always in range. -/
def adjustLevel (level : PrivacyLevel) (steps : ℤ) : PrivacyLevel :=
  let levels : List PrivacyLevel := [.low, .medium, .high, .maximum]
  let currentIndex : ℤ := levels.indexOf level
  let newIndex : ℤ := max 0 (min ((levels.length : ℤ) - 1) (currentIndex + steps))
  levels.getD newIndex.toNat .low

/-- `PrivacyAdapter.threatToPrivacyLevel`. -/
def threatToPrivacyLevel : ThreatLevel → PrivacyLevel
  | .low => .low
  | .medium => .medium
  | .high => .high
  | .critical => .maximum

/-- `PrivacyAdapter.adjustForTransactionType`: fixed per-category offset. -/
def adjustForTransactionType (currentLevel : PrivacyLevel) (type : TransactionType) :
    PrivacyLevel :=
  let adjustment : ℤ :=
    match type with
    | .payment => 0
    | .reputation => -1
    | .compliance => 1
    | .governance => -1
  adjustLevel currentLevel adjustment

/-- `PrivacyAdapter.adjustForAmount`. -/
def adjustForAmount (currentLevel : PrivacyLevel) (amount : ℤ) : PrivacyLevel :=
  if 10000000 < amount then adjustLevel currentLevel 1
  else if 1000000 < amount then adjustLevel currentLevel 0
  else adjustLevel currentLevel (-1)

/-- `PrivacyAdapter.adjustForNetwork` (congestion checked before health). -/
def adjustForNetwork (currentLevel : PrivacyLevel) (conditions : NetworkConditions) :
    PrivacyLevel :=
  if 8/10 < conditions.congestion then adjustLevel currentLevel (-1)
  else if conditions.networkHealth < 7/10 then adjustLevel currentLevel 1
  else currentLevel

/-- `PrivacyAdapter.calculateAverageThreat`. -/
def calculateAverageThreat (threats : List ThreatLevel) : ThreatLevel :=
  let threatValue : ThreatLevel → ℚ := fun t =>
    match t with
    | .low => 1
    | .medium => 2
    | .high => 3
    | .critical => 4
  let avg : ℚ := (threats.map threatValue).sum / (threats.length : ℚ)
  if 35/10 ≤ avg then .critical
  else if 25/10 ≤ avg then .high
  else if 15/10 ≤ avg then .medium
  else .low

/-- `PrivacyAdapter.assessThreat`. -/
def assessThreat (threatHistory : ThreatHistory) (context : PrivacyContext) :
    ThreatLevel :=
  let history := threatHistory (bytesToHex context.userPseudonym)
  if history.length = 0 then .medium
  else
    let recentThreats := history.drop (history.length - 10)
    let avgThreat := calculateAverageThreat recentThreats
    if context.transactionType = .compliance then .high
    else if context.transactionType = .governance then .medium
    else avgThreat

/-- The static `privacyConfigs` table seeded by `initializePrivacyConfigs`. -/
def privacyConfigs : PrivacyLevel → PrivacyConfiguration
  | .low =>
    { level := .low, proofSize := 1024, verifyTime := 10, zkProofRequired := false,
      merkleDepth := 8, polynomialDegree := 4 }
  | .medium =>
    { level := .medium, proofSize := 2048, verifyTime := 50, zkProofRequired := true,
      merkleDepth := 12, polynomialDegree := 8 }
  | .high =>
    { level := .high, proofSize := 4096, verifyTime := 100, zkProofRequired := true,
      merkleDepth := 16, polynomialDegree := 16 }
  | .maximum =>
    { level := .maximum, proofSize := 8192, verifyTime := 200, zkProofRequired := true,
      merkleDepth := 20, polynomialDegree := 32 }

/-- `PrivacyAdapter.adaptPrivacyLevel`.  JS truthiness is modelled literally:
a supplied `threatLevel` (a nonempty string) is always truthy; `amount` is
truthy only when nonzero; `networkConditions` (an object) is always truthy. -/
def adaptPrivacyLevel (threatHistory : ThreatHistory) (context : PrivacyContext) :
    PrivacyConfiguration :=
  let threatLevel :=
    match context.threatLevel with
    | some t => t
    | none => assessThreat threatHistory context
  let base0 := threatToPrivacyLevel threatLevel
  let base1 := adjustForTransactionType base0 context.transactionType
  let base2 :=
    match context.amount with
    | some a => if a ≠ 0 then adjustForAmount base1 a else base1
    | none => base1
  let base3 :=
    match context.networkConditions with
    | some c => adjustForNetwork base2 c
    | none => base2
  { privacyConfigs base3 with level := base3 }

/-- `PrivacyAdapter.updateThreatHistory`: append the new threat for the
pseudonym's key and drop the oldest entry (`shift`) once the history exceeds
50 entries. -/
def updateThreatHistory (threatHistory : ThreatHistory) (pseudonym : List Byte)
    (threat : ThreatLevel) : ThreatHistory :=
  fun k =>
    if k = bytesToHex pseudonym then
      let history := threatHistory (bytesToHex pseudonym) ++ [threat]
      if 50 < history.length then history.drop 1 else history
    else threatHistory k

end Privacy

namespace Fraud

/-- `PaymentData` interface of `fraud-detector.ts`. -/
structure PaymentData where
  pseudonym : List Byte
  amount : ℤ
  timestamp : ℤ
  chain : String
  commitment : List Byte
deriving DecidableEq, Repr

/-- `FraudAssessment` interface. -/
structure FraudAssessment where
  riskScore : ℚ
  riskLevel : RiskLevel
  anomalies : List String
  confidence : ℚ
deriving DecidableEq, Repr

/-- `DetectionOptions` interface. -/
structure DetectionOptions where
  preservePrivacy : Bool
  sensitivity : ℚ
deriving DecidableEq, Repr

/-- The feature record produced by `extractFeatures` (interface `FeatureSet`). -/
structure FeatureSet where
  amountCategory : ℚ
  timePattern : ℚ
  chainPattern : ℚ
  frequency : ℚ
  amountDeviation : ℚ
deriving DecidableEq, Repr

/-- `PaymentPattern` interface of `fraud-detector.ts`.  The JS `Set<string>`
`chains` is modelled as its insertion-ordered, duplicate-free element list. -/
structure PaymentPattern where
  pseudonym : List Byte
  payments : List PaymentData
  frequency : ℚ
  avgAmount : ℚ
  chains : List String
  lastUpdated : ℤ
deriving DecidableEq, Repr

/-- The `patterns` map of `FraudDetector`, as an insertion-ordered association
list (a JS `Map`). -/
abbrev Patterns := List (String × PaymentPattern)

/-- `Map.get`: first binding for the key, if any. -/
def mapGet (ps : Patterns) (k : String) : Option PaymentPattern :=
  (ps.find? (fun kv => kv.1 = k)).map (fun kv => kv.2)

/-- In-place mutation of the pattern object stored under key `k` (the JS code
mutates the object returned by `Map.get`, so every binding of that key is
affected while insertion order is preserved). -/
def mapSet (ps : Patterns) (k : String) (v : PaymentPattern) : Patterns :=
  ps.map (fun kv => if kv.1 = k then (k, v) else kv)

/-- `Set.prototype.add`: append the element if it is not already present. -/
def chainsAdd (chains : List String) (chain : String) : List String :=
  if chain ∈ chains then chains else chains ++ [chain]

/-- `FraudDetector.hashToCategory`: `hash[offset % hash.length] % max`. -/
def hashToCategory (hash : List Byte) (offset : ℕ) (max : ℕ) : ℚ :=
  (((hash.getD (offset % hash.length) 0).val % max : ℕ) : ℚ)

/-- `FraudDetector.hashToNumber`: `(hash[offset % hash.length] / 255) * max`. -/
def hashToNumber (hash : List Byte) (offset : ℕ) (max : ℚ) : ℚ :=
  ((hash.getD (offset % hash.length) 0).val : ℚ) / 255 * max

/-- `FraudDetector.extractPrivateFeatures`: every feature is derived from one
byte of `sha256(payment.commitment)`. -/
def extractPrivateFeatures (hashFn : List Byte → List Byte) (payment : PaymentData) :
    FeatureSet :=
  let hash := hashFn payment.commitment
  { amountCategory := hashToCategory hash 0 5
    timePattern := hashToCategory hash 1 4
    chainPattern := hashToCategory hash 2 7
    frequency := hashToNumber hash 3 100 / 100
    amountDeviation := hashToNumber hash 4 50 / 100 }

/-- `FraudDetector.categorizeAmount`. -/
def categorizeAmount (amount : ℤ) : ℚ :=
  if amount < 1000 then 0
  else if amount < 10000 then 1
  else if amount < 100000 then 2
  else if amount < 1000000 then 3
  else 4

/-- `FraudDetector.analyzeTimePattern`: 1 when the variance of inter-payment
intervals is below `(0.3 · mean interval)²`, else 0 (the `timestamp` argument
of the source is unused there as well). -/
def analyzeTimePattern (pattern : PaymentPattern) (_timestamp : ℤ) : ℚ :=
  if pattern.payments.length < 2 then 0
  else
    let intervals : List ℚ :=
      (pattern.payments.zip pattern.payments.tail).map
        (fun pq => ((pq.2.timestamp : ℚ) - (pq.1.timestamp : ℚ)))
    let avgInterval : ℚ := intervals.sum / (intervals.length : ℚ)
    let variance : ℚ :=
      (intervals.map (fun i => (i - avgInterval) ^ 2)).sum / (intervals.length : ℚ)
    if variance < (avgInterval * (3/10)) ^ 2 then 1 else 0

/-- `FraudDetector.calculateDeviation`: `min(1, |amount − avg| / avg)`. -/
def calculateDeviation (pattern : PaymentPattern) (amount : ℤ) : ℚ :=
  let amounts : List ℚ := pattern.payments.map (fun p => (p.amount : ℚ))
  let avg : ℚ := amounts.sum / (amounts.length : ℚ)
  min 1 (|(amount : ℚ) - avg| / avg)

/-- `FraudDetector.analyzeChainPattern` mutates the looked-up pattern
(`pattern.chains.add(chain)`) and returns the new set size; the caller
`extractDirectFeatures` reaches it with a possibly-`undefined` pattern, in
which case the property access throws (`none` here).  On success it returns
the features together with the mutated `patterns` map. -/
def extractDirectFeatures (ps : Patterns) (payment : PaymentData) :
    Option (FeatureSet × Patterns) :=
  let key := bytesToHex payment.pseudonym
  match mapGet ps key with
  | none => none
  | some pattern =>
    let newChains := chainsAdd pattern.chains payment.chain
    some
      ({ amountCategory := categorizeAmount payment.amount
         timePattern := analyzeTimePattern pattern payment.timestamp
         chainPattern := (newChains.length : ℚ)
         frequency := pattern.frequency
         amountDeviation := calculateDeviation pattern payment.amount },
       mapSet ps key { pattern with chains := newChains })

/-- `FraudDetector.extractFeatures`: dispatch on `preservePrivacy`.  The
private branch never touches `patterns`. -/
def extractFeatures (hashFn : List Byte → List Byte) (ps : Patterns)
    (payment : PaymentData) (preservePrivacy : Bool) :
    Option (FeatureSet × Patterns) :=
  if preservePrivacy then some (extractPrivateFeatures hashFn payment, ps)
  else extractDirectFeatures ps payment

/-- `FraudDetector.detectAnomalies`: five independent threshold predicates,
each gated by a predicate-specific sensitivity cut. -/
def detectAnomalies (features : FeatureSet) (sensitivity : ℚ) : List String :=
  (if 4 < features.amountCategory ∧ 3/10 < sensitivity
    then ["unusual_amount_category"] else [])
  ++ (if 8/10 < features.frequency ∧ 4/10 < sensitivity
    then ["high_frequency"] else [])
  ++ (if 1/2 < features.amountDeviation ∧ 1/2 < sensitivity
    then ["high_amount_deviation"] else [])
  ++ (if features.timePattern = 0 ∧ 6/10 < sensitivity
    then ["irregular_timing"] else [])
  ++ (if 5 < features.chainPattern ∧ 7/10 < sensitivity
    then ["excessive_chain_switching"] else [])

/-- `FraudDetector.calculateRiskScore`: additive contributions clamped to 1. -/
def calculateRiskScore (anomalies : List String) (features : FeatureSet) : ℚ :=
  min 1
    ((anomalies.length : ℚ) * (15/100)
      + (if 9/10 < features.frequency then 2/10 else 0)
      + (if 7/10 < features.amountDeviation then 15/100 else 0)
      + (if features.timePattern = 0 then 1/10 else 0))

/-- `FraudDetector.scoreToLevel`: inclusive upper cut points 0.8 / 0.6 / 0.4. -/
def scoreToLevel (score : ℚ) : RiskLevel :=
  if 8/10 ≤ score then .critical
  else if 6/10 ≤ score then .high
  else if 4/10 ≤ score then .medium
  else .low

/-- `FraudDetector.calculateConfidence`: 0.5 base, +0.2 for frequency data,
+0.2 for any anomaly, capped at 1. -/
def calculateConfidence (features : FeatureSet) (anomalies : List String) : ℚ :=
  min 1
    (1/2 + (if 0 < features.frequency then 2/10 else 0)
      + (if 0 < anomalies.length then 2/10 else 0))

/-- `FraudDetector.assessRisk`: extract features, detect anomalies, score,
bucket and attach a confidence.  The returned `Patterns` is the detector
state after the call (the direct-feature branch mutates it). -/
def assessRisk (hashFn : List Byte → List Byte) (ps : Patterns)
    (payment : PaymentData) (options : DetectionOptions) :
    Option (FraudAssessment × Patterns) :=
  match extractFeatures hashFn ps payment options.preservePrivacy with
  | none => none
  | some (features, ps2) =>
    let anomalies := detectAnomalies features options.sensitivity
    let riskScore := calculateRiskScore anomalies features
    some
      ({ riskScore := riskScore
         riskLevel := scoreToLevel riskScore
         anomalies := anomalies
         confidence := calculateConfidence features anomalies },
       ps2)

/-- `FraudDetector.updatePattern` (`now` stands for `Date.now()`). -/
def updatePattern (ps : Patterns) (payment : PaymentData) (now : ℤ) : Patterns :=
  let key := bytesToHex payment.pseudonym
  match mapGet ps key with
  | some existing =>
    mapSet ps key
      { existing with
        payments := existing.payments ++ [payment]
        frequency := ((existing.payments.length + 1 : ℕ) : ℚ) / 10
        lastUpdated := now }
  | none =>
    ps ++ [(key,
      { pseudonym := payment.pseudonym
        payments := [payment]
        frequency := 1/10
        avgAmount := (payment.amount : ℚ)
        chains := [payment.chain]
        lastUpdated := now })]

end Fraud

namespace Optimizer

/-- `PaymentRoute` interface of `payment-optimizer.ts`. -/
structure PaymentRoute where
  chain : String
  estimatedGas : ℤ
  privacyScore : ℚ
  successRate : ℚ
  estimatedTime : ℚ
deriving DecidableEq, Repr

/-- `RoutingOptions` interface. -/
structure RoutingOptions where
  amount : ℤ
  targetChain : Option String
  privacyLevel : PrivacyLevel
  maxGasPrice : Option ℤ
  preferredChains : Option (List String)

/-- The `routingHistory` map, as a total function defaulting to `[]`
(the source reads it as `this.routingHistory.get(chain) || []`). -/
abbrev RoutingHistory := String → List PaymentRoute

/-- The `routingHistory` of a newly constructed `AIPaymentRouter`. -/
def emptyRoutingHistory : RoutingHistory := fun _ => []

/-- The chain list used both as the default `availableChains` and by
`initializeChainMetrics`, so `chainMetrics.get(chain)` is `some` exactly for
these chains (nothing else ever writes to `chainMetrics`). -/
def knownChains : List String :=
  ["ethereum", "polygon", "bsc", "arbitrum", "optimism", "avalanche", "solana"]

/-- The `baseGas` table of `estimateGas` with its `|| 21000n` default. -/
def baseGas (chain : String) : ℤ :=
  (([("ethereum", 21000), ("polygon", 21000), ("bsc", 21000), ("arbitrum", 21000),
     ("optimism", 21000), ("avalanche", 21000), ("solana", 5000)]
    : List (String × ℤ)).lookup chain).getD 21000

/-- `AIPaymentRouter.estimateGas`: base gas times a complexity multiplier of
1.2 for amounts above 1,000,000, floored back to a bigint. -/
def estimateGas (chain : String) (amount : ℤ) : ℤ :=
  ⌊(baseGas chain : ℚ) * (if 1000000 < amount then 12/10 else 1)⌋

/-- The `baseScores` table of `calculatePrivacyScore` with its `|| 0.5` default. -/
def baseScores (chain : String) : ℚ :=
  (([("ethereum", 7/10), ("polygon", 6/10), ("bsc", 1/2), ("arbitrum", 7/10),
     ("optimism", 7/10), ("avalanche", 6/10), ("solana", 8/10)]
    : List (String × ℚ)).lookup chain).getD (1/2)

/-- The `levelMultipliers` table (total on the four levels, so the `|| 1.0`
default is dead). -/
def levelMultipliers : PrivacyLevel → ℚ
  | .low => 8/10
  | .medium => 1
  | .high => 12/10
  | .maximum => 3/2

/-- `AIPaymentRouter.calculatePrivacyScore`: `min(1, base · multiplier)`.
Caution: the exact-rational model places `0.6 · 1.5` exactly on the `0.9`
filter boundary of the `maximum` level, whereas IEEE doubles give slightly
less; no theorem below rests on that boundary. -/
def calculatePrivacyScore (chain : String) (privacyLevel : PrivacyLevel) : ℚ :=
  min 1 (baseScores chain * levelMultipliers privacyLevel)

/-- The `defaults` table of `getSuccessRate` with its `|| 0.95` default. -/
def defaultSuccessRate (chain : String) : ℚ :=
  (([("ethereum", 95/100), ("polygon", 98/100), ("bsc", 97/100), ("arbitrum", 96/100),
     ("optimism", 96/100), ("avalanche", 97/100), ("solana", 99/100)]
    : List (String × ℚ)).lookup chain).getD (95/100)

/-- `AIPaymentRouter.getSuccessRate`: the venue default when there is no
history, else the fraction of recorded routes whose own stored `successRate`
exceeded 0.9 (the source's `amount` parameter is unused there as well). -/
def getSuccessRate (routingHistory : RoutingHistory) (chain : String) (_amount : ℤ) : ℚ :=
  let history := routingHistory chain
  if history.length = 0 then defaultSuccessRate chain
  else ((history.filter (fun r => 9/10 < r.successRate)).length : ℚ) / (history.length : ℚ)

/-- The `blockTimes` table of `estimateTime` with its `|| 2000` default. -/
def blockTimes (chain : String) : ℚ :=
  (([("ethereum", 12000), ("polygon", 2000), ("bsc", 3000), ("arbitrum", 1000),
     ("optimism", 2000), ("avalanche", 2000), ("solana", 400)]
    : List (String × ℚ)).lookup chain).getD 2000

/-- `AIPaymentRouter.estimateTime`: block time times the metrics entry's
`avgConfirmationBlocks`, which `initializeChainMetrics` sets to 12 for every
known chain and nothing ever updates (`|| 12` is therefore also 12). -/
def estimateTime (chain : String) : ℚ :=
  blockTimes chain * 12

/-- `AIPaymentRouter.calculateRoute` for one chain. -/
def calculateRoute (routingHistory : RoutingHistory) (chain : String)
    (options : RoutingOptions) : PaymentRoute :=
  { chain := chain
    estimatedGas := estimateGas chain options.amount
    privacyScore := calculatePrivacyScore chain options.privacyLevel
    successRate := getSuccessRate routingHistory chain options.amount
    estimatedTime := estimateTime chain }

/-- The comparator score of the `routes.sort` call:
`0.4·privacy + 0.4·success − 0.2·(gas/1e9 if gas > 0 else 0)`. -/
def routeScore (r : PaymentRoute) : ℚ :=
  r.privacyScore * (4/10) + r.successRate * (4/10)
    - (if 0 < r.estimatedGas then (r.estimatedGas : ℚ) / 1000000000 else 0) * (2/10)

/-- The candidate list built by the `for` loop of `findOptimalRoute`: one
route per preferred (or default) chain that has a `chainMetrics` entry. -/
def candidateRoutes (routingHistory : RoutingHistory) (options : RoutingOptions) :
    List PaymentRoute :=
  let availableChains := options.preferredChains.getD knownChains
  (availableChains.filter (fun c => c ∈ knownChains)).map
    (fun c => calculateRoute routingHistory c options)

/-- The candidates after the in-place `routes.sort((a, b) => scoreB - scoreA)`.
JS `Array.prototype.sort` is a stable sort, so it is modelled by the stable
`List.insertionSort` with the total preorder "score not below". -/
def sortedRoutes (routingHistory : RoutingHistory) (options : RoutingOptions) :
    List PaymentRoute :=
  (candidateRoutes routingHistory options).insertionSort
    (fun a b => routeScore b ≤ routeScore a)

/-- `AIPaymentRouter.getPrivacyScore`: the per-level minimum privacy threshold
(total on the four levels, so the `|| 0.5` default is dead). -/
def getPrivacyScore : PrivacyLevel → ℚ
  | .low => 3/10
  | .medium => 1/2
  | .high => 7/10
  | .maximum => 9/10

/-- `AIPaymentRouter.createDefaultRoute`. -/
def createDefaultRoute (chain : String) : PaymentRoute :=
  { chain := chain
    estimatedGas := 21000
    privacyScore := 7/10
    successRate := 95/100
    estimatedTime := 12000 }

/-- `options.targetChain || "ethereum"`: the empty string is falsy. -/
def resolveTargetChain (targetChain : Option String) : String :=
  match targetChain with
  | some c => if c = "" then "ethereum" else c
  | none => "ethereum"

/-- `AIPaymentRouter.findOptimalRoute`: score the candidates, sort, filter by
the privacy threshold of the requested level, filter by `maxGasPrice` when
that option is truthy (a supplied `0n` is falsy and skips the gas filter),
and return `finalRoutes[0] || routes[0] || createDefaultRoute(...)`. -/
def findOptimalRoute (routingHistory : RoutingHistory) (options : RoutingOptions) :
    PaymentRoute :=
  let routes := sortedRoutes routingHistory options
  let minPrivacyScore := getPrivacyScore options.privacyLevel
  let filteredRoutes := routes.filter (fun r => minPrivacyScore ≤ r.privacyScore)
  let finalRoutes :=
    match options.maxGasPrice with
    | some m => if m ≠ 0 then filteredRoutes.filter (fun r => r.estimatedGas ≤ m)
      else filteredRoutes
    | none => filteredRoutes
  match finalRoutes with
  | r :: _ => r
  | [] =>
    match routes with
    | r :: _ => r
    | [] => createDefaultRoute (resolveTargetChain options.targetChain)

/-- `AIPaymentRouter.updateHistory`: append the route for the chain and drop
the oldest entry (`shift`) once the history exceeds 100 entries. -/
def updateHistory (routingHistory : RoutingHistory) (chain : String)
    (route : PaymentRoute) : RoutingHistory :=
  fun k =>
    if k = chain then
      let history := routingHistory chain ++ [route]
      if 100 < history.length then history.drop 1 else history
    else routingHistory k

end Optimizer

namespace Reputation

/-- `PaymentPattern` interface of `reputation-learner.ts` (distinct from the
fraud detector's pattern record). -/
structure PaymentPattern where
  pseudonym : List Byte
  amount : ℤ
  timestamp : ℤ
  chain : String
  success : Bool
deriving DecidableEq, Repr

/-- `ReputationPrediction` interface. -/
structure ReputationPrediction where
  score : ℚ
  confidence : ℚ
  factors : List String
deriving DecidableEq, Repr

/-- The `FeatureVector` interface of `reputation-learner.ts`. -/
structure FeatureVector where
  paymentCount : ℚ
  totalAmount : ℚ
  avgAmount : ℚ
  successRate : ℚ
  avgInterval : ℚ
  chainDiversity : ℚ
  recentActivity : ℚ
deriving DecidableEq, Repr

/-- `AIReputationLearner.createEmptyFeatures`. -/
def createEmptyFeatures : FeatureVector :=
  { paymentCount := 0, totalAmount := 0, avgAmount := 0, successRate := 0,
    avgInterval := 0, chainDiversity := 0, recentActivity := 0 }

/-- `AIReputationLearner.calculateRecentActivity` (`now` stands for
`Date.now()`): `min(1, |payments within the trailing 7 days| / 10)`. -/
def calculateRecentActivity (now : ℤ) (payments : List PaymentPattern) : ℚ :=
  if payments.length = 0 then 0
  else
    min 1
      (((payments.filter
          (fun p => now - p.timestamp < 7 * 24 * 60 * 60 * 1000)).length : ℚ) / 10)

/-- The number of distinct chains in a payment list (`new Set(...).size`). -/
def distinctChainCount (payments : List PaymentPattern) : ℕ :=
  ((payments.map (fun p => p.chain)).foldl
    (fun acc c => if c ∈ acc then acc else acc ++ [c]) []).length

/-- `AIReputationLearner.extractFeatures`: statistics of a payment list; the
empty list yields the all-zero vector. -/
def extractFeatures (now : ℤ) (payments : List PaymentPattern) : FeatureVector :=
  if payments.length = 0 then createEmptyFeatures
  else
    let amounts : List ℚ := payments.map (fun p => (p.amount : ℚ))
    let timestamps : List ℚ := payments.map (fun p => (p.timestamp : ℚ))
    let successCount : ℕ := (payments.filter (fun p => p.success)).length
    let avgAmount : ℚ := amounts.sum / (amounts.length : ℚ)
    let totalAmount : ℚ := amounts.sum
    let paymentCount : ℕ := payments.length
    let successRate : ℚ := (successCount : ℚ) / (paymentCount : ℚ)
    let timeSpan : ℚ :=
      timestamps.foldl max (timestamps.headD 0) - timestamps.foldl min (timestamps.headD 0)
    let avgInterval : ℚ := if 0 < timeSpan then timeSpan / (paymentCount : ℚ) else 0
    let chainDiversity : ℚ := (distinctChainCount payments : ℚ) / 7
    { paymentCount := (paymentCount : ℚ)
      totalAmount := totalAmount
      avgAmount := avgAmount
      successRate := successRate
      avgInterval := avgInterval
      chainDiversity := chainDiversity
      recentActivity := calculateRecentActivity now payments }

/-- `AIReputationLearner.hashToNumber` (same shape as the fraud detector's). -/
def hashToNumber (hash : List Byte) (offset : ℕ) (max : ℚ) : ℚ :=
  ((hash.getD (offset % hash.length) 0).val : ℚ) / 255 * max

/-- `AIReputationLearner.extractFeaturesFromPseudonym`: deterministic features
from `sha256(pseudonym)`. -/
def extractFeaturesFromPseudonym (hashFn : List Byte → List Byte)
    (pseudonym : List Byte) : FeatureVector :=
  let hash := hashFn pseudonym
  { paymentCount := hashToNumber hash 0 100
    totalAmount := hashToNumber hash 1 1000000
    avgAmount := hashToNumber hash 2 10000
    successRate := hashToNumber hash 3 100 / 100
    avgInterval := hashToNumber hash 4 86400
    chainDiversity := hashToNumber hash 5 100 / 100
    recentActivity := hashToNumber hash 6 100 / 100 }

/-- `features[factor as keyof FeatureVector]` for the field names occurring in
`ReputationModel.train`.  (For a key that is not a `FeatureVector` field the
JS expression is `undefined` and poisons the score with `NaN`; no such key is
exercised by the claims, and the model returns 0 there.) -/
def featureValue (features : FeatureVector) (factor : String) : ℚ :=
  if factor = "paymentCount" then features.paymentCount
  else if factor = "totalAmount" then features.totalAmount
  else if factor = "avgAmount" then features.avgAmount
  else if factor = "successRate" then features.successRate
  else if factor = "avgInterval" then features.avgInterval
  else if factor = "chainDiversity" then features.chainDiversity
  else if factor = "recentActivity" then features.recentActivity
  else 0

/-- The `weights` map of `ReputationModel`, as an insertion-ordered
association list. -/
abbrev Weights := List (String × ℚ)

/-- `ReputationModel.predict`: base score 50 plus `value · weight · 10` per
stored weight (in map insertion order), clamped to `[0, 100]`; confidence is
`0.5 + min(1, paymentCount / 10) · 0.5` when `paymentCount > 0`, else `0.5`. -/
def modelPredict (weights : Weights) (features : FeatureVector) : ℚ × ℚ :=
  let score :=
    weights.foldl (fun s fw => s + featureValue features fw.1 * fw.2 * 10) 50
  let score := max 0 (min 100 score)
  let dataQuality :=
    if 0 < features.paymentCount then min 1 (features.paymentCount / 10) else 0
  (score, 1/2 + dataQuality * (1/2))

/-- `AIReputationLearner.identifyFactors`. -/
def identifyFactors (features : FeatureVector) : List String :=
  let factors :=
    (if 10 < features.paymentCount then ["high_activity"] else [])
    ++ (if 95/100 < features.successRate then ["reliable"] else [])
    ++ (if 1/2 < features.chainDiversity then ["multi_chain"] else [])
    ++ (if 7/10 < features.recentActivity then ["recent_activity"] else [])
    ++ (if 100000 < features.avgAmount then ["high_value"] else [])
  if 0 < factors.length then factors else ["new_user"]

/-- The mutable state of an `AIReputationLearner` (its `ReputationModel`
weights and the `isTrained` flag). -/
structure Learner where
  weights : Weights
  isTrained : Bool

/-- A freshly constructed `AIReputationLearner`. -/
def initialLearner : Learner := { weights := [], isTrained := false }

/-- `AIReputationLearner.predict`: with an untrained model and no supplied
history, the hardcoded sentinel; otherwise features come from the history (if
given) or from the pseudonym hash, and the model produces score/confidence. -/
def predict (hashFn : List Byte → List Byte) (now : ℤ) (learner : Learner)
    (pseudonym : List Byte) (paymentHistory : Option (List PaymentPattern)) :
    ReputationPrediction :=
  if learner.isTrained = false ∧ paymentHistory = none then
    { score := 50, confidence := 1/2, factors := ["insufficient_data"] }
  else
    let features :=
      match paymentHistory with
      | some history => extractFeatures now history
      | none => extractFeaturesFromPseudonym hashFn pseudonym
    let prediction := modelPredict learner.weights features
    { score := prediction.1
      confidence := prediction.2
      factors := identifyFactors features }

end Reputation

namespace Bridge

/-- `X402PaymentRequest` interface of `x402-ai-bridge.ts`. -/
structure X402PaymentRequest where
  stealthAddress : List Byte
  amount : ℤ
  targetChain : Option String
  privacyLevel : Option PrivacyLevel
  userPseudonym : List Byte

/-- `OptimizedX402Payment` interface. -/
structure OptimizedX402Payment where
  route : Optimizer.PaymentRoute
  privacyConfig : Privacy.PrivacyConfiguration
  fraudAssessment : Fraud.FraudAssessment
  recommendedChain : String
  estimatedCost : ℤ

/-- `X402AIBridge.fraudToThreat` (the mapping table is total on the four risk
levels, so the `|| 'medium'` default is dead). -/
def fraudToThreat : RiskLevel → ThreatLevel
  | .low => .low
  | .medium => .medium
  | .high => .high
  | .critical => .critical

/-- `X402AIBridge.calculateCost`: `gas × BigInt(Math.ceil(proofSize / 1024))`. -/
def calculateCost (route : Optimizer.PaymentRoute)
    (privacy : Privacy.PrivacyConfiguration) : ℤ :=
  route.estimatedGas * ⌈(privacy.proofSize : ℚ) / 1024⌉

/-- `X402AIBridge.optimizePayment` (`now` stands for `Date.now()`): route
first, then risk on the chosen chain with `preservePrivacy: true` and an
all-zero 32-byte commitment, then privacy adaptation seeded with the risk
verdict as threat level, then the cost estimate.  The private-mode risk
assessment never throws, so the `none` branch is unreachable. -/
def optimizePayment (hashFn : List Byte → List Byte)
    (routingHistory : Optimizer.RoutingHistory)
    (patterns : Fraud.Patterns) (threatHistory : Privacy.ThreatHistory)
    (request : X402PaymentRequest) (now : ℤ) : Option OptimizedX402Payment :=
  let route := Optimizer.findOptimalRoute routingHistory
    { amount := request.amount
      targetChain := request.targetChain
      privacyLevel := request.privacyLevel.getD .high
      maxGasPrice := none
      preferredChains := none }
  let paymentData : Fraud.PaymentData :=
    { pseudonym := request.userPseudonym
      amount := request.amount
      timestamp := now
      chain := route.chain
      commitment := List.replicate 32 (0 : Byte) }
  match Fraud.assessRisk hashFn patterns paymentData
    { preservePrivacy := true, sensitivity := 1/2 } with
  | none => none
  | some (fraudAssessment, _) =>
    let privacyContext : Privacy.PrivacyContext :=
      { userPseudonym := request.userPseudonym
        transactionType := .payment
        amount := some request.amount
        threatLevel := some (fraudToThreat fraudAssessment.riskLevel)
        networkConditions := none }
    let privacyConfig := Privacy.adaptPrivacyLevel threatHistory privacyContext
    some
      { route := route
        privacyConfig := privacyConfig
        fraudAssessment := fraudAssessment
        recommendedChain := route.chain
        estimatedCost := calculateCost route privacyConfig }

end Bridge

/-! Concrete probe values used by witnesses and counterexamples. -/

/-- A stand-in hash function: every input hashes to the one-byte digest `[0]`. -/
def zeroHashFn : List Byte → List Byte := fun _ => [0]

/-- A concrete payment for pseudonym `0x01` on ethereum. -/
def probePayment : Fraud.PaymentData :=
  { pseudonym := [1], amount := 1000, timestamp := 0, chain := "ethereum",
    commitment := [] }

/-- A stored pattern for pseudonym `0x01` holding one payment on ethereum. -/
def probePattern : Fraud.PaymentPattern :=
  { pseudonym := [1], payments := [probePayment], frequency := 1/10,
    avgAmount := 1000, chains := ["ethereum"], lastUpdated := 0 }

/-- A detector state holding `probePattern`. -/
def probePatterns : Fraud.Patterns := [(bytesToHex [1], probePattern)]

/-- A second payment by the same pseudonym on a chain not yet in the stored
pattern's chain set. -/
def probePayment2 : Fraud.PaymentData :=
  { pseudonym := [1], amount := 1000, timestamp := 5, chain := "polygon",
    commitment := [] }

/-- `probePattern` after its chain set absorbed polygon. -/
def probePattern2 : Fraud.PaymentPattern :=
  { probePattern with chains := ["ethereum", "polygon"] }

/-- The detector state `probePatterns` after the chain-set mutation. -/
def probePatterns2 : Fraud.Patterns := [(bytesToHex [1], probePattern2)]

/-- A recorded polygon route whose stored success rate is only 0.5, so it does
not count as a historical success. -/
def probeRoute : Optimizer.PaymentRoute :=
  { chain := "polygon", estimatedGas := 21000, privacyScore := 6/10,
    successRate := 1/2, estimatedTime := 2000 }

/-- A routing history holding exactly that one polygon record. -/
def probeHistory : Optimizer.RoutingHistory :=
  Optimizer.updateHistory Optimizer.emptyRoutingHistory ("polygon") probeRoute

/-- Routing options with a supplied-but-zero `maxGasPrice` (falsy in JS), a
`high` privacy requirement, and bsc/polygon as candidates.  At level `high`
every privacy comparison has a wide margin (0.6 < 0.7 < 0.72), so the filter
decisions below agree with IEEE-double arithmetic. -/
def probeOptions : Optimizer.RoutingOptions :=
  { amount := 1000, targetChain := none, privacyLevel := .high,
    maxGasPrice := some 0, preferredChains := some ["bsc", "polygon"] }

/-- The bsc candidate route computed for `probeOptions` over `probeHistory`:
privacy `0.5 · 1.2 = 0.6`, default success rate 0.97. -/
def probeRouteBsc : Optimizer.PaymentRoute :=
  { chain := "bsc", estimatedGas := 21000, privacyScore := 3/5,
    successRate := 97/100, estimatedTime := 36000 }

/-- The polygon candidate route computed for `probeOptions` over
`probeHistory`: privacy `0.6 · 1.2 = 0.72`, success rate 0 from the stored
record. -/
def probeRoutePolygon : Optimizer.PaymentRoute :=
  { chain := "polygon", estimatedGas := 21000, privacyScore := 18/25,
    successRate := 0, estimatedTime := 24000 }

/-- Routing options with a truthy `maxGasPrice`, used by the C1 witness. -/
def witnessOptions : Optimizer.RoutingOptions :=
  { amount := 1000, targetChain := none, privacyLevel := .high,
    maxGasPrice := some 50000, preferredChains := some ["ethereum"] }

section Theorems

open Fraud Privacy Optimizer Reputation Bridge

/-- Membership in a conditional singleton list. -/
lemma mem_ite_singleton {c : Prop} [Decidable c] {x a : String} :
    x ∈ (if c then [a] else ([] : List String)) ↔ c ∧ x = a := by
  split
  · simp_all
  · simp_all

/-- C3: the score-to-risk-level mapping of `FraudDetector.scoreToLevel` is
monotone non-decreasing and has inclusive upper boundaries: `s ≥ 0.8` maps to
`critical` (in particular `0.8` itself), `0.6 ≤ s < 0.8` to `high`,
`0.4 ≤ s < 0.6` to `medium`, and `s < 0.4` to `low`. -/
theorem scoreToLevel_monotone_with_inclusive_boundaries (s t : ℚ) (hst : s ≤ t) :
    (Fraud.scoreToLevel s).rank ≤ (Fraud.scoreToLevel t).rank
    ∧ (8/10 ≤ s → Fraud.scoreToLevel s = .critical)
    ∧ (6/10 ≤ s ∧ s < 8/10 → Fraud.scoreToLevel s = .high)
    ∧ (4/10 ≤ s ∧ s < 6/10 → Fraud.scoreToLevel s = .medium)
    ∧ (s < 4/10 → Fraud.scoreToLevel s = .low)
    ∧ Fraud.scoreToLevel (8/10) = .critical := by
  refine ⟨?_, ?_, ?_, ?_, ?_, ?_⟩
  · unfold Fraud.scoreToLevel
    split_ifs <;> simp [RiskLevel.rank] <;> linarith
  · intro h
    simp [Fraud.scoreToLevel, if_pos h]
  · intro h
    unfold Fraud.scoreToLevel
    rw [if_neg (by linarith), if_pos h.1]
  · intro h
    unfold Fraud.scoreToLevel
    rw [if_neg (by linarith), if_neg (by linarith), if_pos h.1]
  · intro h
    unfold Fraud.scoreToLevel
    rw [if_neg (by linarith), if_neg (by linarith), if_neg (by linarith)]
  · norm_num [Fraud.scoreToLevel]

/-- Witness for C3 at the boundary score 0.8 and at 0.9. -/
theorem scoreToLevel_monotone_with_inclusive_boundaries_witness :
    (Fraud.scoreToLevel (8/10)).rank ≤ (Fraud.scoreToLevel (9/10)).rank
    ∧ (8/10 ≤ (8/10 : ℚ) → Fraud.scoreToLevel (8/10) = .critical)
    ∧ (6/10 ≤ (8/10 : ℚ) ∧ (8/10 : ℚ) < 8/10 → Fraud.scoreToLevel (8/10) = .high)
    ∧ (4/10 ≤ (8/10 : ℚ) ∧ (8/10 : ℚ) < 6/10 → Fraud.scoreToLevel (8/10) = .medium)
    ∧ ((8/10 : ℚ) < 4/10 → Fraud.scoreToLevel (8/10) = .low)
    ∧ Fraud.scoreToLevel (8/10) = .critical :=
  scoreToLevel_monotone_with_inclusive_boundaries (8/10) (9/10) (by norm_num)

/-- C4: `FraudDetector.detectAnomalies` is monotone in the sensitivity: every
anomaly reported at a lower sensitivity is also reported at any higher one. -/
theorem detectAnomalies_monotone_in_sensitivity (f : Fraud.FeatureSet) (s1 s2 : ℚ)
    (h : s1 ≤ s2) :
    Fraud.detectAnomalies f s1 ⊆ Fraud.detectAnomalies f s2 := by
  intro x hx
  simp only [Fraud.detectAnomalies, List.mem_append, mem_ite_singleton] at hx ⊢
  rcases hx with ((((⟨⟨hc, hs⟩, hx⟩ | ⟨⟨hc, hs⟩, hx⟩) | ⟨⟨hc, hs⟩, hx⟩) |
    ⟨⟨hc, hs⟩, hx⟩) | ⟨⟨hc, hs⟩, hx⟩)
  · exact Or.inl (Or.inl (Or.inl (Or.inl ⟨⟨hc, by linarith⟩, hx⟩)))
  · exact Or.inl (Or.inl (Or.inl (Or.inr ⟨⟨hc, by linarith⟩, hx⟩)))
  · exact Or.inl (Or.inl (Or.inr ⟨⟨hc, by linarith⟩, hx⟩))
  · exact Or.inl (Or.inr ⟨⟨hc, by linarith⟩, hx⟩)
  · exact Or.inr ⟨⟨hc, by linarith⟩, hx⟩

/-- Witness for C4: a feature set with a large amount category, at
sensitivities 0.4 ≤ 0.6. -/
theorem detectAnomalies_monotone_in_sensitivity_witness :
    Fraud.detectAnomalies ⟨5, 1, 0, 0, 0⟩ (4/10)
      ⊆ Fraud.detectAnomalies ⟨5, 1, 0, 0, 0⟩ (6/10) :=
  detectAnomalies_monotone_in_sensitivity ⟨5, 1, 0, 0, 0⟩ (4/10) (6/10) (by norm_num)

/-- C5: `PrivacyAdapter.adjustLevel` clamps at both ends of the ordered tier
enum: any offset of at least +3 lands on `maximum`, any offset of at most −3
lands on `low`, and stepping never wraps (a non-negative offset never lowers
the tier, a non-positive offset never raises it; the result is by type always
one of the four tiers). -/
theorem adjustLevel_clamps_at_both_ends (level : PrivacyLevel) (steps : ℤ) :
    (3 ≤ steps → Privacy.adjustLevel level steps = .maximum)
    ∧ (steps ≤ -3 → Privacy.adjustLevel level steps = .low)
    ∧ (0 ≤ steps → level.rank ≤ (Privacy.adjustLevel level steps).rank)
    ∧ (steps ≤ 0 → (Privacy.adjustLevel level steps).rank ≤ level.rank) := by
  have hidx : ∀ st : ℤ, Privacy.adjustLevel level st =
      [PrivacyLevel.low, .medium, .high, .maximum].getD
        (max 0 (min 3 ((level.rank : ℤ) + st))).toNat .low := by
    intro st
    cases level <;> rfl
  have hrank : ∀ i : ℕ, i ≤ 3 →
      ([PrivacyLevel.low, .medium, .high, .maximum].getD i .low).rank = i := by
    intro i hi
    interval_cases i <;> rfl
  have hr : (0 : ℤ) ≤ (level.rank : ℤ) ∧ (level.rank : ℤ) ≤ 3 := by
    cases level <;> simp [PrivacyLevel.rank]
  refine ⟨?_, ?_, ?_, ?_⟩
  · intro h
    rw [hidx steps]
    have h3 : (max 0 (min 3 ((level.rank : ℤ) + steps))).toNat = 3 := by omega
    rw [h3]
    rfl
  · intro h
    rw [hidx steps]
    have h0 : (max 0 (min 3 ((level.rank : ℤ) + steps))).toNat = 0 := by omega
    rw [h0]
    rfl
  · intro h
    rw [hidx steps]
    have h3 : (max 0 (min 3 ((level.rank : ℤ) + steps))).toNat ≤ 3 := by omega
    rw [hrank _ h3]
    omega
  · intro h
    rw [hidx steps]
    have h3 : (max 0 (min 3 ((level.rank : ℤ) + steps))).toNat ≤ 3 := by omega
    rw [hrank _ h3]
    omega

/-- Witness for C5 at `medium` with offsets ±5. -/
theorem adjustLevel_clamps_at_both_ends_witness :
    Privacy.adjustLevel .medium 5 = .maximum ∧ Privacy.adjustLevel .medium (-5) = .low :=
  ⟨(adjustLevel_clamps_at_both_ends .medium 5).1 (by norm_num),
   (adjustLevel_clamps_at_both_ends .medium (-5)).2.1 (by norm_num)⟩

/-- The rational ceiling of `p / 1024` matches rounding-up natural division. -/
lemma ceil_div_1024 (p : ℕ) : ⌈(p : ℚ) / 1024⌉ = (((p + 1023) / 1024 : ℕ) : ℤ) := by
  have hd := Nat.div_add_mod (p + 1023) 1024
  have hm : (p + 1023) % 1024 < 1024 := Nat.mod_lt _ (by norm_num)
  have h1 : 1024 * ((p + 1023) / 1024) ≤ p + 1023 := by omega
  have h2 : p ≤ 1024 * ((p + 1023) / 1024) := by omega
  have h1q : (1024 : ℚ) * (((p + 1023) / 1024 : ℕ) : ℚ) ≤ (p : ℚ) + 1023 := by
    exact_mod_cast h1
  have h2q : (p : ℚ) ≤ 1024 * (((p + 1023) / 1024 : ℕ) : ℚ) := by exact_mod_cast h2
  rw [Int.ceil_eq_iff]
  constructor
  · have hlt : (((p + 1023) / 1024 : ℕ) : ℚ) - 1 < (p : ℚ) / 1024 := by
      rw [lt_div_iff₀ (by norm_num : (0:ℚ) < 1024)]
      linarith
    exact_mod_cast hlt
  · have hle : (p : ℚ) / 1024 ≤ (((p + 1023) / 1024 : ℕ) : ℚ) := by
      rw [div_le_iff₀ (by norm_num : (0:ℚ) < 1024)]
      linarith
    exact_mod_cast hle

/-- C9: the facade's estimated cost, `X402AIBridge.calculateCost`, equals the
route's estimated gas multiplied by the ceiling of `proofSize / 1024`, and
that product is exact integer arithmetic on the gas value: it equals
`gas · ((proofSize + 1023) div 1024)`. -/
theorem calculateCost_is_gas_times_ceil_proofSize (route : Optimizer.PaymentRoute)
    (privacy : Privacy.PrivacyConfiguration) :
    Bridge.calculateCost route privacy
      = route.estimatedGas * ⌈(privacy.proofSize : ℚ) / 1024⌉
    ∧ Bridge.calculateCost route privacy
      = route.estimatedGas * (((privacy.proofSize + 1023) / 1024 : ℕ) : ℤ) := by
  refine ⟨rfl, ?_⟩
  rw [Bridge.calculateCost, ceil_div_1024]

/-- C8: the scored functions terminate with usable defaults: reputation
feature extraction of an empty history is the all-zero feature vector, and
`AIReputationLearner.predict` on any untrained learner with no supplied
history returns the sentinel score 50 with confidence 0.5. -/
theorem reputation_defaults_empty_history_and_untrained_predict :
    (∀ now : ℤ, Reputation.extractFeatures now []
      = { paymentCount := 0, totalAmount := 0, avgAmount := 0, successRate := 0,
          avgInterval := 0, chainDiversity := 0, recentActivity := 0 })
    ∧ (∀ (hashFn : List Byte → List Byte) (now : ℤ) (learner : Reputation.Learner)
        (pseudonym : List Byte), learner.isTrained = false →
        Reputation.predict hashFn now learner pseudonym none
          = { score := 50, confidence := 1/2, factors := ["insufficient_data"] }) := by
  constructor
  · intro now
    rfl
  · intro hashFn now learner pseudonym h
    simp [Reputation.predict, h]

/-- Witness for C8: a freshly constructed learner and a concrete pseudonym. -/
theorem reputation_defaults_witness :
    Reputation.predict (fun _ => []) 0 Reputation.initialLearner [1] none
      = { score := 50, confidence := 1/2, factors := ["insufficient_data"] } :=
  reputation_defaults_empty_history_and_untrained_predict.2
    (fun _ => []) 0 Reputation.initialLearner [1] rfl

/-- Folding capacity-bounded pushes (append one, shift the oldest beyond
`cap`) from a state within capacity retains exactly the last `cap` elements
of the full stream. -/
lemma boundedPush_foldl {α : Type} (cap : ℕ) :
    ∀ (ts : List α) (h : List α), h.length ≤ cap →
      ts.foldl
        (fun acc x => if cap < (acc ++ [x]).length then (acc ++ [x]).drop 1 else acc ++ [x])
        h
        = (h ++ ts).drop ((h ++ ts).length - cap) := by
  intro ts
  induction ts with
  | nil =>
    intro h hle
    simp [Nat.sub_eq_zero_of_le, hle]
  | cons x rest ih =>
    intro h hle
    rw [List.foldl_cons]
    by_cases hfull : cap < (h ++ [x]).length
    · have hcap : h.length = cap := by
        simp only [List.length_append, List.length_singleton] at hfull
        omega
      have h1len : 1 ≤ (h ++ [x]).length := by simp
      have harith : (h ++ [x]).drop 1 ++ rest = ((h ++ [x]) ++ rest).drop 1 := by
        rw [List.drop_append_of_le_length h1len]
      rw [if_pos hfull, ih _ (by simp [hcap]), harith, List.drop_drop]
      have hassoc : h ++ [x] ++ rest = h ++ x :: rest := by simp
      rw [hassoc]
      congr 1
      simp only [List.length_drop, List.length_append, List.length_cons,
        List.length_singleton]
      omega
    · rw [if_neg hfull, ih _ (by omega)]
      congr 1
      · simp
      · simp

/-- Projecting a fold of keyed updates at one key: only the calls whose key
matches contribute, in order. -/
lemma perKey_foldl {γ β : Type} (keyOf : γ → String) (step : List β → γ → List β) :
    ∀ (calls : List γ) (s : String → List β) (k : String),
      (calls.foldl
        (fun st c => fun k2 => if k2 = keyOf c then step (st (keyOf c)) c else st k2) s) k
        = (calls.filter (fun c => keyOf c = k)).foldl (fun acc c => step acc c) (s k) := by
  intro calls
  induction calls with
  | nil => intro s k; rfl
  | cons c rest ih =>
    intro s k
    rw [List.foldl_cons, ih, List.filter_cons]
    by_cases hk : keyOf c = k
    · rw [decide_eq_true hk, if_pos rfl, List.foldl_cons]
      congr 1
      rw [if_pos hk.symm, hk]
    · rw [decide_eq_false hk, if_neg Bool.false_ne_true]
      congr 1
      rw [if_neg (fun he => hk he.symm)]

/-- C2: after any sequence of `updateThreatHistory` / `updateHistory` calls
starting from the fresh stores, every per-key threat history holds at most 50
entries and every per-venue route history at most 100 entries, and each holds
exactly the most recently recorded entries for its key (FIFO eviction of the
oldest). -/
theorem histories_bounded_fifo
    (threatCalls : List (List Byte × ThreatLevel))
    (routeCalls : List (String × Optimizer.PaymentRoute)) (k : String) :
    (((threatCalls.foldl (fun st c => Privacy.updateThreatHistory st c.1 c.2)
        Privacy.emptyThreatHistory) k).length ≤ 50
      ∧ (threatCalls.foldl (fun st c => Privacy.updateThreatHistory st c.1 c.2)
          Privacy.emptyThreatHistory) k
        = ((threatCalls.filter (fun c => bytesToHex c.1 = k)).map (fun c => c.2)).drop
            (((threatCalls.filter (fun c => bytesToHex c.1 = k)).map (fun c => c.2)).length
              - 50))
    ∧ (((routeCalls.foldl (fun st c => Optimizer.updateHistory st c.1 c.2)
        Optimizer.emptyRoutingHistory) k).length ≤ 100
      ∧ (routeCalls.foldl (fun st c => Optimizer.updateHistory st c.1 c.2)
          Optimizer.emptyRoutingHistory) k
        = ((routeCalls.filter (fun c => c.1 = k)).map (fun c => c.2)).drop
            (((routeCalls.filter (fun c => c.1 = k)).map (fun c => c.2)).length - 100)) := by
  have hthreat :
      (threatCalls.foldl (fun st c => Privacy.updateThreatHistory st c.1 c.2)
        Privacy.emptyThreatHistory) k
      = ((threatCalls.filter (fun c => bytesToHex c.1 = k)).map (fun c => c.2)).drop
          (((threatCalls.filter (fun c => bytesToHex c.1 = k)).map (fun c => c.2)).length
            - 50) := by
    have h1 := perKey_foldl (fun c : List Byte × ThreatLevel => bytesToHex c.1)
      (fun acc c => if 50 < (acc ++ [c.2]).length then (acc ++ [c.2]).drop 1
        else acc ++ [c.2])
      threatCalls Privacy.emptyThreatHistory k
    have h2 := boundedPush_foldl 50
      ((threatCalls.filter (fun c => bytesToHex c.1 = k)).map (fun c => c.2)) []
      (by simp)
    rw [List.foldl_map] at h2
    simp only [List.nil_append] at h2
    exact h1.trans h2
  have hroute :
      (routeCalls.foldl (fun st c => Optimizer.updateHistory st c.1 c.2)
        Optimizer.emptyRoutingHistory) k
      = ((routeCalls.filter (fun c => c.1 = k)).map (fun c => c.2)).drop
          (((routeCalls.filter (fun c => c.1 = k)).map (fun c => c.2)).length - 100) := by
    have h1 := perKey_foldl (fun c : String × Optimizer.PaymentRoute => c.1)
      (fun acc c => if 100 < (acc ++ [c.2]).length then (acc ++ [c.2]).drop 1
        else acc ++ [c.2])
      routeCalls Optimizer.emptyRoutingHistory k
    have h2 := boundedPush_foldl 100
      ((routeCalls.filter (fun c => c.1 = k)).map (fun c => c.2)) []
      (by simp)
    rw [List.foldl_map] at h2
    simp only [List.nil_append] at h2
    exact h1.trans h2
  refine ⟨⟨?_, hthreat⟩, ?_, hroute⟩
  · rw [hthreat]
    simp only [List.length_drop]
    omega
  · rw [hroute]
    simp only [List.length_drop]
    omega

/-- Unfolding equation of `assessRisk` in privacy-preserving mode: the state
passes through unchanged and features come from the commitment hash. -/
lemma assessRisk_true_eq (hashFn : List Byte → List Byte) (ps : Fraud.Patterns)
    (payment : Fraud.PaymentData) (sens : ℚ) :
    Fraud.assessRisk hashFn ps payment ⟨true, sens⟩
      = some
        ({ riskScore := Fraud.calculateRiskScore
            (Fraud.detectAnomalies (Fraud.extractPrivateFeatures hashFn payment) sens)
            (Fraud.extractPrivateFeatures hashFn payment)
           riskLevel := Fraud.scoreToLevel (Fraud.calculateRiskScore
            (Fraud.detectAnomalies (Fraud.extractPrivateFeatures hashFn payment) sens)
            (Fraud.extractPrivateFeatures hashFn payment))
           anomalies := Fraud.detectAnomalies
            (Fraud.extractPrivateFeatures hashFn payment) sens
           confidence := Fraud.calculateConfidence
            (Fraud.extractPrivateFeatures hashFn payment)
            (Fraud.detectAnomalies (Fraud.extractPrivateFeatures hashFn payment) sens) },
         ps) :=
  rfl

/-- Unfolding equation of `assessRisk` in direct mode: it is the
post-processing of `extractDirectFeatures`. -/
lemma assessRisk_false_eq (hashFn : List Byte → List Byte) (ps : Fraud.Patterns)
    (payment : Fraud.PaymentData) (sens : ℚ) :
    Fraud.assessRisk hashFn ps payment ⟨false, sens⟩
      = match Fraud.extractDirectFeatures ps payment with
        | none => none
        | some (features, ps2) =>
          some
            ({ riskScore := Fraud.calculateRiskScore
                (Fraud.detectAnomalies features sens) features
               riskLevel := Fraud.scoreToLevel
                (Fraud.calculateRiskScore (Fraud.detectAnomalies features sens) features)
               anomalies := Fraud.detectAnomalies features sens
               confidence := Fraud.calculateConfidence features
                (Fraud.detectAnomalies features sens) },
             ps2) :=
  rfl

/-- Unfolding equation of `chainsAdd`. -/
lemma chainsAdd_def (cs : List String) (c : String) :
    Fraud.chainsAdd cs c = if c ∈ cs then cs else cs ++ [c] :=
  rfl

/-- The added chain is a member afterwards. -/
lemma chainsAdd_mem (cs : List String) (c : String) : c ∈ Fraud.chainsAdd cs c := by
  rw [chainsAdd_def]
  split
  · assumption
  · simp

/-- `Set.add` is idempotent. -/
lemma chainsAdd_idem (cs : List String) (c : String) :
    Fraud.chainsAdd (Fraud.chainsAdd cs c) c = Fraud.chainsAdd cs c := by
  rw [chainsAdd_def (Fraud.chainsAdd cs c) c, if_pos (chainsAdd_mem cs c)]

/-- Looking up a key right after setting it yields the new value (provided the
key was present, which is how the source reaches `mapSet`). -/
lemma mapGet_mapSet_self (ps : Fraud.Patterns) (k : String)
    (v pat : Fraud.PaymentPattern) (h : Fraud.mapGet ps k = some pat) :
    Fraud.mapGet (Fraud.mapSet ps k v) k = some v := by
  induction ps with
  | nil => simp [Fraud.mapGet] at h
  | cons kv rest ih =>
    by_cases hk : kv.1 = k
    · simp [Fraud.mapGet, Fraud.mapSet, List.find?_cons, hk]
    · simp only [Fraud.mapGet, Fraud.mapSet, List.map_cons, List.find?_cons,
        if_neg hk] at h ⊢
      rw [decide_eq_false hk] at h ⊢
      exact ih h

/-- Setting the same key twice keeps only the second value. -/
lemma mapSet_mapSet (ps : Fraud.Patterns) (k : String)
    (v w : Fraud.PaymentPattern) :
    Fraud.mapSet (Fraud.mapSet ps k v) k w = Fraud.mapSet ps k w := by
  unfold Fraud.mapSet
  rw [List.map_map]
  congr 1
  funext kv
  by_cases hk : kv.1 = k
  · simp [hk]
  · simp [hk]

/-- `analyzeTimePattern` only reads the stored payments, not the chain set. -/
lemma analyzeTimePattern_chains_irrel (pat : Fraud.PaymentPattern)
    (cs : List String) (t : ℤ) :
    Fraud.analyzeTimePattern { pat with chains := cs } t
      = Fraud.analyzeTimePattern pat t :=
  rfl

/-- `calculateDeviation` only reads the stored payments, not the chain set. -/
lemma calculateDeviation_chains_irrel (pat : Fraud.PaymentPattern)
    (cs : List String) (a : ℤ) :
    Fraud.calculateDeviation { pat with chains := cs } a
      = Fraud.calculateDeviation pat a :=
  rfl

/-- C10: in privacy-preserving mode the extracted `amountDeviation` always
lies in `[0, 0.5]` (a hash byte divided by 255, times 50, divided by 100), so
the `high_amount_deviation` anomaly (which needs `> 0.5`) never fires and the
`+0.15` amount-deviation risk contribution (which needs `> 0.7`) is
unreachable, for every payment assessed with `preservePrivacy = true`. -/
theorem private_amountDeviation_bounded_anomaly_unreachable
    (hashFn : List Byte → List Byte) (payment : Fraud.PaymentData) (sens : ℚ) :
    0 ≤ (Fraud.extractPrivateFeatures hashFn payment).amountDeviation
    ∧ (Fraud.extractPrivateFeatures hashFn payment).amountDeviation ≤ 1/2
    ∧ ¬ (7/10 < (Fraud.extractPrivateFeatures hashFn payment).amountDeviation)
    ∧ (if 7/10 < (Fraud.extractPrivateFeatures hashFn payment).amountDeviation
        then (15/100 : ℚ) else 0) = 0
    ∧ "high_amount_deviation"
        ∉ Fraud.detectAnomalies (Fraud.extractPrivateFeatures hashFn payment) sens
    ∧ ∀ (ps ps2 : Fraud.Patterns) (r : Fraud.FraudAssessment),
        Fraud.assessRisk hashFn ps payment ⟨true, sens⟩ = some (r, ps2) →
        "high_amount_deviation" ∉ r.anomalies := by
  have hdev : (Fraud.extractPrivateFeatures hashFn payment).amountDeviation
      = (((hashFn payment.commitment).getD
          (4 % (hashFn payment.commitment).length) 0).val : ℚ) / 255 * 50 / 100 :=
    rfl
  have hbyte : (((hashFn payment.commitment).getD
      (4 % (hashFn payment.commitment).length) 0).val : ℚ) ≤ 255 := by
    have hlt := ((hashFn payment.commitment).getD
      (4 % (hashFn payment.commitment).length) 0).isLt
    exact_mod_cast Nat.le_of_lt_succ hlt
  have h1 : 0 ≤ (Fraud.extractPrivateFeatures hashFn payment).amountDeviation := by
    rw [hdev]
    positivity
  have h2 : (Fraud.extractPrivateFeatures hashFn payment).amountDeviation ≤ 1/2 := by
    rw [hdev, div_mul_eq_mul_div, div_div, div_le_iff₀ (by norm_num : (0:ℚ) < 255 * 100)]
    linarith
  have h3 : ¬ (7/10 < (Fraud.extractPrivateFeatures hashFn payment).amountDeviation) := by
    intro hlt
    linarith
  have h5 : "high_amount_deviation"
      ∉ Fraud.detectAnomalies (Fraud.extractPrivateFeatures hashFn payment) sens := by
    intro hx
    simp only [Fraud.detectAnomalies, List.mem_append, mem_ite_singleton] at hx
    rcases hx with ((((⟨_, hs⟩ | ⟨_, hs⟩) | ⟨⟨hc, _⟩, _⟩) | ⟨_, hs⟩) | ⟨_, hs⟩)
    · exact absurd hs (by decide)
    · exact absurd hs (by decide)
    · linarith
    · exact absurd hs (by decide)
    · exact absurd hs (by decide)
  refine ⟨h1, h2, h3, if_neg h3, h5, ?_⟩
  intro ps ps2 r h
  rw [assessRisk_true_eq] at h
  simp only [Option.some.injEq, Prod.mk.injEq] at h
  obtain ⟨hr, _⟩ := h
  rw [← hr]
  exact h5

/-- Privacy-preserving assessment of `probePayment` under the stand-in hash,
fully evaluated. -/
lemma assessRisk_eval_private :
    Fraud.assessRisk zeroHashFn [] probePayment ⟨true, 1/2⟩
      = some (⟨1/10, .low, [], 1/2⟩, []) := by
  rw [assessRisk_true_eq]
  norm_num [Fraud.extractPrivateFeatures, Fraud.hashToCategory, Fraud.hashToNumber,
    Fraud.detectAnomalies, Fraud.calculateRiskScore, Fraud.scoreToLevel,
    Fraud.calculateConfidence, zeroHashFn, probePayment, List.getD, min_def]

/-- Witness for C10: the fully evaluated private-mode assessment of
`probePayment` reports no `high_amount_deviation` anomaly. -/
theorem private_amountDeviation_witness :
    "high_amount_deviation"
      ∉ (⟨1/10, RiskLevel.low, [], 1/2⟩ : Fraud.FraudAssessment).anomalies :=
  (private_amountDeviation_bounded_anomaly_unreachable zeroHashFn probePayment
    (1/2)).2.2.2.2.2 [] [] ⟨1/10, .low, [], 1/2⟩ assessRisk_eval_private

/-- Direct-mode assessment of `probePayment2` against `probePatterns`, fully
evaluated: the stored pattern's chain set absorbs polygon. -/
lemma assessRisk_eval_direct :
    Fraud.assessRisk zeroHashFn probePatterns probePayment2 ⟨false, 1/2⟩
      = some (⟨1/10, .low, [], 7/10⟩, probePatterns2) := by
  rw [assessRisk_false_eq]
  have hne : ("polygon" : String) ≠ "ethereum" := by decide
  have hd : Fraud.extractDirectFeatures probePatterns probePayment2
      = some (⟨1, 0, 2, 1/10, 0⟩, probePatterns2) := by
    norm_num [Fraud.extractDirectFeatures, Fraud.mapGet, Fraud.mapSet, Fraud.chainsAdd,
      Fraud.categorizeAmount, Fraud.analyzeTimePattern, Fraud.calculateDeviation,
      probePatterns, probePattern, probePayment, probePayment2, probePatterns2,
      probePattern2, List.find?, min_def, hne]
  rw [hd]
  norm_num [Fraud.detectAnomalies, Fraud.calculateRiskScore, Fraud.scoreToLevel,
    Fraud.calculateConfidence, min_def]

/-- Counterexample to C6 as stated: a direct-mode `assessRisk` call (no
`updatePattern` involved) changes the detector's stored patterns. -/
theorem assessRisk_direct_mode_mutates_patterns :
    ∃ out, Fraud.assessRisk zeroHashFn probePatterns probePayment2 ⟨false, 1/2⟩
        = some out
      ∧ out.2 ≠ probePatterns := by
  refine ⟨(⟨1/10, .low, [], 7/10⟩, probePatterns2), assessRisk_eval_direct, ?_⟩
  simp [probePatterns2, probePatterns, probePattern2, probePattern]

/-- Let-free unfolding equation of `extractDirectFeatures`. -/
lemma extractDirectFeatures_eq (ps : Fraud.Patterns) (payment : Fraud.PaymentData) :
    Fraud.extractDirectFeatures ps payment
      = match Fraud.mapGet ps (bytesToHex payment.pseudonym) with
        | none => none
        | some pattern =>
          some
            ({ amountCategory := Fraud.categorizeAmount payment.amount
               timePattern := Fraud.analyzeTimePattern pattern payment.timestamp
               chainPattern := ((Fraud.chainsAdd pattern.chains payment.chain).length : ℚ)
               frequency := pattern.frequency
               amountDeviation := Fraud.calculateDeviation pattern payment.amount },
             Fraud.mapSet ps (bytesToHex payment.pseudonym)
               { pattern with
                  chains := Fraud.chainsAdd pattern.chains payment.chain }) :=
  rfl

/-- C6 (amended): `assessRisk` with `preservePrivacy = true` leaves the stored
patterns unchanged; with `preservePrivacy = false` its only state effect is
adding the payment's chain to the looked-up pattern's chain set (via
`analyzeChainPattern`). -/
theorem assessRisk_state_effect (hashFn : List Byte → List Byte)
    (ps : Fraud.Patterns) (payment : Fraud.PaymentData) (b : Bool) (sens : ℚ)
    (out : Fraud.FraudAssessment × Fraud.Patterns)
    (h : Fraud.assessRisk hashFn ps payment ⟨b, sens⟩ = some out) :
    (b = true → out.2 = ps)
    ∧ (b = false → ∃ pat,
        Fraud.mapGet ps (bytesToHex payment.pseudonym) = some pat
        ∧ out.2 = Fraud.mapSet ps (bytesToHex payment.pseudonym)
            { pat with chains := Fraud.chainsAdd pat.chains payment.chain }) := by
  cases b
  · constructor
    · intro hc
      exact absurd hc (by simp)
    · intro _
      rw [assessRisk_false_eq, extractDirectFeatures_eq] at h
      cases hg : Fraud.mapGet ps (bytesToHex payment.pseudonym) with
      | none =>
        rw [hg] at h
        simp at h
      | some pat =>
        rw [hg] at h
        simp only [Option.some.injEq] at h
        refine ⟨pat, rfl, ?_⟩
        rw [← h]
  · constructor
    · intro _
      rw [assessRisk_true_eq] at h
      simp only [Option.some.injEq] at h
      rw [← h]
    · intro hc
      exact absurd hc (by simp)

/-- Witness for the amended C6: in privacy-preserving mode on the empty store,
the state after the call is still the empty store. -/
theorem assessRisk_state_effect_witness :
    ((⟨1/10, RiskLevel.low, [], 1/2⟩ : Fraud.FraudAssessment),
      ([] : Fraud.Patterns)).2 = ([] : Fraud.Patterns) :=
  (assessRisk_state_effect zeroHashFn [] probePayment true (1/2)
    (⟨1/10, .low, [], 1/2⟩, []) assessRisk_eval_private).1 rfl

/-- Repeating `extractDirectFeatures` on the state it produced yields the same
features and the same state: the chain-set mutation is idempotent. -/
lemma extractDirectFeatures_idem (ps : Fraud.Patterns) (payment : Fraud.PaymentData)
    (f : Fraud.FeatureSet) (ps1 : Fraud.Patterns)
    (h : Fraud.extractDirectFeatures ps payment = some (f, ps1)) :
    Fraud.extractDirectFeatures ps1 payment = some (f, ps1) := by
  rw [extractDirectFeatures_eq] at h
  rw [extractDirectFeatures_eq]
  cases hg : Fraud.mapGet ps (bytesToHex payment.pseudonym) with
  | none =>
    rw [hg] at h
    simp at h
  | some pat =>
    rw [hg] at h
    simp only [Option.some.injEq, Prod.mk.injEq] at h
    obtain ⟨hf, hps1⟩ := h
    have hg2 : Fraud.mapGet ps1 (bytesToHex payment.pseudonym)
        = some { pat with chains := Fraud.chainsAdd pat.chains payment.chain } := by
      rw [← hps1]
      exact mapGet_mapSet_self ps (bytesToHex payment.pseudonym) _ pat hg
    rw [hg2]
    simp only [Option.some.injEq, Prod.mk.injEq]
    constructor
    · rw [← hf]
      simp only [analyzeTimePattern_chains_irrel, calculateDeviation_chains_irrel,
        chainsAdd_idem]
    · rw [← hps1]
      simp only [chainsAdd_idem]
      exact mapSet_mapSet ps (bytesToHex payment.pseudonym) _ _

/-- C7: `assessRisk` is a pure function of its input and the current stored
state: an immediate repetition with the identical payment and options (and no
intervening `updatePattern`) returns the identical assessment, and the state
reached after the first call is a fixed point. -/
theorem assessRisk_idempotent_on_repeat (hashFn : List Byte → List Byte)
    (ps : Fraud.Patterns) (payment : Fraud.PaymentData)
    (o : Fraud.DetectionOptions) (r1 : Fraud.FraudAssessment) (ps1 : Fraud.Patterns)
    (h : Fraud.assessRisk hashFn ps payment o = some (r1, ps1)) :
    Fraud.assessRisk hashFn ps1 payment o = some (r1, ps1) := by
  obtain ⟨b, sens⟩ := o
  cases b
  · rw [assessRisk_false_eq] at h ⊢
    cases hg : Fraud.extractDirectFeatures ps payment with
    | none =>
      rw [hg] at h
      simp at h
    | some fp =>
      obtain ⟨f, ps2⟩ := fp
      rw [hg] at h
      simp only [Option.some.injEq, Prod.mk.injEq] at h
      obtain ⟨hr, hps⟩ := h
      subst hps
      rw [extractDirectFeatures_idem ps payment f ps2 hg, ← hr]
  · rw [assessRisk_true_eq] at h ⊢
    simp only [Option.some.injEq, Prod.mk.injEq] at h
    obtain ⟨hr, hps⟩ := h
    subst hps
    rw [hr]

/-- Witness for C7: repeating the evaluated direct-mode call on its own output
state returns the identical assessment. -/
theorem assessRisk_idempotent_witness :
    Fraud.assessRisk zeroHashFn probePatterns2 probePayment2 ⟨false, 1/2⟩
      = some (⟨1/10, RiskLevel.low, [], 7/10⟩, probePatterns2) :=
  assessRisk_idempotent_on_repeat zeroHashFn probePatterns probePayment2
    ⟨false, 1/2⟩ ⟨1/10, .low, [], 7/10⟩ probePatterns2 assessRisk_eval_direct

/-- C1 (amended): when a nonzero (truthy) `maxGasPrice` is supplied,
`findOptimalRoute` returns a route whose estimated gas respects it, unless no
candidate passes the combined privacy-threshold-plus-gas filter, in which case
the pre-filter top-ranked route is returned; and if no venue was scoreable at
all, the hardcoded default route is returned.  (The call always produces a
route; a supplied `maxGasPrice` of `0n` is falsy in JS and skips the gas
filter, see the counterexample.) -/
theorem findOptimalRoute_three_level_fallback (rh : Optimizer.RoutingHistory)
    (opts : Optimizer.RoutingOptions) (m : ℤ) (hm : opts.maxGasPrice = some m)
    (hm0 : m ≠ 0) :
    (Optimizer.findOptimalRoute rh opts).estimatedGas ≤ m
    ∨ ((Optimizer.sortedRoutes rh opts).filter
        (fun r => decide (Optimizer.getPrivacyScore opts.privacyLevel ≤ r.privacyScore)
          && decide (r.estimatedGas ≤ m)) = []
      ∧ (Optimizer.sortedRoutes rh opts).head?
          = some (Optimizer.findOptimalRoute rh opts))
    ∨ (Optimizer.sortedRoutes rh opts = []
      ∧ Optimizer.findOptimalRoute rh opts
          = Optimizer.createDefaultRoute (Optimizer.resolveTargetChain opts.targetChain)) := by
  have hF : Optimizer.findOptimalRoute rh opts
      = match ((Optimizer.sortedRoutes rh opts).filter
          (fun r => decide (Optimizer.getPrivacyScore opts.privacyLevel ≤ r.privacyScore))).filter
          (fun r => decide (r.estimatedGas ≤ m)) with
        | r :: _ => r
        | [] =>
          match Optimizer.sortedRoutes rh opts with
          | r :: _ => r
          | [] => Optimizer.createDefaultRoute
              (Optimizer.resolveTargetChain opts.targetChain) := by
    simp only [Optimizer.findOptimalRoute, hm]
    rw [if_pos hm0]
    rfl
  cases hfin : ((Optimizer.sortedRoutes rh opts).filter
      (fun r => decide (Optimizer.getPrivacyScore opts.privacyLevel ≤ r.privacyScore))).filter
      (fun r => decide (r.estimatedGas ≤ m)) with
  | cons r rest =>
    left
    have hmem : r ∈ ((Optimizer.sortedRoutes rh opts).filter
        (fun r => decide (Optimizer.getPrivacyScore opts.privacyLevel ≤ r.privacyScore))).filter
        (fun r => decide (r.estimatedGas ≤ m)) := by
      rw [hfin]
      exact List.mem_cons_self r rest
    have hgas := of_decide_eq_true (List.mem_filter.mp hmem).2
    rw [hF, hfin]
    exact hgas
  | nil =>
    right
    have hcomb : (Optimizer.sortedRoutes rh opts).filter
        (fun r => decide (Optimizer.getPrivacyScore opts.privacyLevel ≤ r.privacyScore)
          && decide (r.estimatedGas ≤ m)) = [] := by
      rw [List.filter_congr
        (fun a _ => Bool.and_comm
          (decide (Optimizer.getPrivacyScore opts.privacyLevel ≤ a.privacyScore))
          (decide (a.estimatedGas ≤ m))),
        ← List.filter_filter]
      exact hfin
    cases hr : Optimizer.sortedRoutes rh opts with
    | nil =>
      right
      refine ⟨rfl, ?_⟩
      rw [hF, hfin, hr]
    | cons r rest =>
      left
      rw [hr] at hcomb
      refine ⟨hcomb, ?_⟩
      rw [hF, hfin, hr]
      rfl

/-- Witness for the amended C1 at concrete options with a truthy gas ceiling. -/
theorem findOptimalRoute_three_level_fallback_witness :
    (Optimizer.findOptimalRoute Optimizer.emptyRoutingHistory witnessOptions).estimatedGas
        ≤ 50000
    ∨ ((Optimizer.sortedRoutes Optimizer.emptyRoutingHistory witnessOptions).filter
        (fun r => decide (Optimizer.getPrivacyScore witnessOptions.privacyLevel
            ≤ r.privacyScore)
          && decide (r.estimatedGas ≤ 50000)) = []
      ∧ (Optimizer.sortedRoutes Optimizer.emptyRoutingHistory witnessOptions).head?
          = some (Optimizer.findOptimalRoute Optimizer.emptyRoutingHistory witnessOptions))
    ∨ (Optimizer.sortedRoutes Optimizer.emptyRoutingHistory witnessOptions = []
      ∧ Optimizer.findOptimalRoute Optimizer.emptyRoutingHistory witnessOptions
          = Optimizer.createDefaultRoute
              (Optimizer.resolveTargetChain witnessOptions.targetChain)) :=
  findOptimalRoute_three_level_fallback Optimizer.emptyRoutingHistory witnessOptions
    50000 rfl (by norm_num)

/-- The candidate routes for `probeOptions` over `probeHistory`, evaluated. -/
lemma candidateRoutes_eval :
    Optimizer.candidateRoutes probeHistory probeOptions
      = [probeRouteBsc, probeRoutePolygon] := by
  have h1 : ("bsc" : String) ≠ "polygon" := by decide
  have hb1 : (("bsc" : String) == "ethereum") = false := by decide
  have hb2 : (("bsc" : String) == "polygon") = false := by decide
  have hb3 : (("polygon" : String) == "ethereum") = false := by decide
  have hb4 : (("polygon" : String) == "polygon") = true := by decide
  norm_num [Optimizer.candidateRoutes, Optimizer.knownChains, Optimizer.calculateRoute,
    Optimizer.estimateGas, Optimizer.baseGas, Optimizer.calculatePrivacyScore,
    Optimizer.baseScores, Optimizer.levelMultipliers, Optimizer.getSuccessRate,
    Optimizer.defaultSuccessRate, Optimizer.estimateTime, Optimizer.blockTimes,
    Optimizer.updateHistory, Optimizer.emptyRoutingHistory, probeHistory, probeOptions,
    probeRoute, probeRouteBsc, probeRoutePolygon, List.lookup, min_def, h1, hb1, hb2,
    hb3, hb4, Int.floor_intCast]

/-- The sorted candidates: bsc ranks above polygon. -/
lemma sortedRoutes_eval :
    Optimizer.sortedRoutes probeHistory probeOptions
      = [probeRouteBsc, probeRoutePolygon] := by
  rw [Optimizer.sortedRoutes, candidateRoutes_eval]
  norm_num [List.insertionSort, List.orderedInsert, Optimizer.routeScore,
    probeRouteBsc, probeRoutePolygon]

/-- The selected route for `probeOptions`: the gas filter is skipped because
the supplied `maxGasPrice` is `0n` (falsy), so the post-privacy-filter top —
polygon — is returned. -/
lemma findOptimalRoute_eval :
    Optimizer.findOptimalRoute probeHistory probeOptions = probeRoutePolygon := by
  have hF : Optimizer.findOptimalRoute probeHistory probeOptions
      = match (Optimizer.sortedRoutes probeHistory probeOptions).filter
          (fun r => decide (Optimizer.getPrivacyScore probeOptions.privacyLevel
            ≤ r.privacyScore)) with
        | r :: _ => r
        | [] =>
          match Optimizer.sortedRoutes probeHistory probeOptions with
          | r :: _ => r
          | [] => Optimizer.createDefaultRoute
              (Optimizer.resolveTargetChain probeOptions.targetChain) := by
    simp only [Optimizer.findOptimalRoute]
    rfl
  rw [hF, sortedRoutes_eval]
  norm_num [Optimizer.getPrivacyScore, probeOptions, probeRouteBsc, probeRoutePolygon]

/-- Counterexample to C1 as stated: with a supplied `maxGasPrice` of `0`, the
returned route's gas exceeds the ceiling, no candidate passes the combined
privacy-plus-gas filter, and yet the returned route is not the pre-filter
top-ranked route (bsc) — JS truthiness skips the gas filter for `0n`. -/
theorem findOptimalRoute_zero_maxGasPrice_cex :
    probeOptions.maxGasPrice = some 0
    ∧ ¬ ((Optimizer.findOptimalRoute probeHistory probeOptions).estimatedGas ≤ 0)
    ∧ (Optimizer.sortedRoutes probeHistory probeOptions).filter
        (fun r => decide (Optimizer.getPrivacyScore probeOptions.privacyLevel
            ≤ r.privacyScore)
          && decide (r.estimatedGas ≤ 0)) = []
    ∧ (Optimizer.sortedRoutes probeHistory probeOptions).head?
        ≠ some (Optimizer.findOptimalRoute probeHistory probeOptions) := by
  refine ⟨rfl, ?_, ?_, ?_⟩
  · rw [findOptimalRoute_eval]
    norm_num [probeRoutePolygon]
  · rw [sortedRoutes_eval]
    norm_num [Optimizer.getPrivacyScore, probeOptions, probeRouteBsc, probeRoutePolygon]
  · rw [sortedRoutes_eval, findOptimalRoute_eval]
    simp [probeRouteBsc, probeRoutePolygon]

end Theorems
